import Mathlib

/-!
Verification of the reservation scheduling engine of the Hicior/booking-system
repository (source: `src/lib/services.ts`, `src/lib/schema.sql`,
`src/lib/api-client.ts`).

The embedding uses:
* calendar dates as integers (day numbers; adding 1 is "the next day"),
  so the `date-utils` normalization helpers (`extractDateString`,
  `normalizeDateForDb`), which only convert between representations of the
  same calendar date, become the identity;
* times of day as minutes from midnight (`ℕ`), mirroring the `HH:MM` parsing
  `time.split(':').map(Number)` in the source;
* instants as rational hours from the midnight of day 0
  (`24 * date + minutes / 60`), mirroring JavaScript `Date` arithmetic in
  milliseconds up to a constant factor;
* `duration_hours` as `ℚ` (the SQL column is `NUMERIC`), with the sentinel
  `-1` meaning "indefinite".
-/

/-- Reservation status (`schema.sql`: `status IN ('active','cancelled','completed')`). -/
inductive Status where
  | active
  | completed
  | cancelled
deriving DecidableEq, Repr

/-- One row of the `reservations` table, restricted to the columns the
scheduling engine reads (`schema.sql` lines 53-70). -/
structure Reservation where
  id : Nat
  table_id : Nat
  guest_name : String
  guest_phone : Option String
  party_size : Nat
  reservation_date : Int
  reservation_time : Nat
  duration_hours : ℚ
  notes : Option String
  status : Status
  employee_id : Option Nat
deriving DecidableEq, Repr

/-- Hour component of a time of day given in minutes
(`EXTRACT(HOUR FROM reservation_time)` in SQL, `getHours` in JS). -/
def hourOf (t : Nat) : Nat := t / 60

/-- The instant (in rational hours from midnight of day 0) of a date + time-of-day
pair, as built by `new Date(date + 'T00:00:00'); setHours(h, m, 0, 0)`. -/
def instant (d : Int) (t : Nat) : ℚ := 24 * d + (t : ℚ) / 60

/-- Start instant of a reservation. -/
def startInstant (r : Reservation) : ℚ := instant r.reservation_date r.reservation_time

/-- JavaScript `Math.round(x * 10) / 10`: round to one decimal, halves toward
positive infinity. -/
def roundTo1 (x : ℚ) : ℚ := (⌊x * 10 + 1 / 2⌋ : ℚ) / 10

/-- End instant of the interval a reservation occupies
(`checkTableAvailability`, services.ts lines 1101-1109): a finite duration is
added to the start; an indefinite reservation (`duration_hours = -1`) blocks
until 06:00 on the day after its date. -/
def endInstant (r : Reservation) : ℚ :=
  if r.duration_hours = -1 then 24 * (r.reservation_date + 1) + 6
  else startInstant r + r.duration_hours

/-- End instant of a candidate booking interval, same rule as `endInstant`
(services.ts lines 1086-1094). -/
def candidateEnd (d : Int) (t : Nat) (dur : ℚ) : ℚ :=
  if dur = -1 then 24 * (d + 1) + 6
  else instant d t + dur

/-- `${hour.toString().padStart(2, "0")}` for hours and minutes below 100. -/
def pad2 (n : Nat) : String := if n < 10 then "0" ++ toString n else toString n

/-- The minute values visited by `for (minute = 0; minute < 60; minute += 15)`. -/
def quarterMinutes : List Nat := [0, 15, 30, 45]

/-- The `HH:MM` string pushed for one hour/minute pair. -/
def slotString (hour minute : Nat) : String := pad2 hour ++ ":" ++ pad2 minute

/-- `generateTimeSlots` (services.ts lines 1253-1269): hours 12-23 with all
four quarter minutes, then hours 0-2 where the inner loop breaks after
pushing `02:00`. -/
def generateTimeSlots : List String :=
  ((List.range' 12 12).flatMap fun hour => quarterMinutes.map (slotString hour))
    ++ ((List.range' 0 3).flatMap fun hour =>
        (quarterMinutes.takeWhile fun minute => !(hour == 2 && minute > 0)).map
          (slotString hour))

/-- The slots at 15-minute spacing from 12:00 through 02:00 of the next day,
both endpoints included: minute offsets 720, 735, ..., 720 + 15*56, taken
modulo one day. -/
def operatingWindowSlots : List String :=
  (List.range 57).map fun i =>
    let t := (720 + 15 * i) % 1440
    slotString (t / 60) (t % 60)

/-- C10, counterexample: `generateTimeSlots()` returns 57 slots, not 56: the
window 12:00 through 02:00 inclusive at 15-minute spacing has 57 boundary
points (14 hours of 4 slots each, plus the final `02:00`). -/
theorem generateTimeSlots_not_56 :
    generateTimeSlots.length = 57 ∧ ¬ generateTimeSlots.length = 56 := by
  constructor
  · rfl
  · decide

/-- C10, amended: the valid reservation start times are exactly the 57 slots at
15-minute spacing within the operating window from 12:00 through 02:00 of the
next day (both ends included), and `generateTimeSlots()` returns exactly these
57 slots, in window order. -/
theorem generateTimeSlots_eq_operatingWindowSlots :
    generateTimeSlots = operatingWindowSlots ∧ generateTimeSlots.length = 57 := by
  constructor
  · rfl
  · rfl

/-- The `statusFilter` argument of `getReservationsWithCrossDay`
(services.ts line 1533). -/
inductive StatusFilter where
  | active
  | completed
  | cancelled
  | all
deriving DecidableEq, Repr

/-- The SQL status condition: empty for `all`, `r.status = '<filter>'` otherwise. -/
def matchesFilter : StatusFilter → Status → Bool
  | .all, _ => true
  | .active, s => s == Status.active
  | .completed, s => s == Status.completed
  | .cancelled, s => s == Status.cancelled

/-- The previous-day pre-filter in the SQL of `getReservationsWithCrossDay`
(services.ts lines 1579-1586): indefinite, or finite with
`EXTRACT(HOUR FROM reservation_time) + duration_hours > 24`.  Note the hour
component only: minutes are dropped. -/
def prevDayCandidate (r : Reservation) : Bool :=
  r.duration_hours == -1 ||
    (decide (0 < r.duration_hours) &&
      decide ((hourOf r.reservation_time : ℚ) + r.duration_hours > 24))

/-- `isReservationActiveOnDate` (services.ts lines 1693-1725): only previous-day
reservations qualify (`daysDiff === 1`); an indefinite one blocks until the
06:00 mark of the day after its date (the start hour is overwritten by
`setHours(6,0,0,0)` after adding one day); a finite one blocks while its end
instant is strictly after the target date's midnight. -/
def isReservationActiveOnDate (r : Reservation) (targetDate : Int) : Bool :=
  if targetDate - r.reservation_date ≠ 1 then false
  else if r.duration_hours = -1 then
    decide ((24 * targetDate : ℚ) < 24 * (r.reservation_date + 1) + 6)
  else
    decide ((24 * targetDate : ℚ) < startInstant r + r.duration_hours)

/-- Result record of `getReservationsWithCrossDay`. -/
structure CrossDayResult where
  sameDay : List Reservation
  previousDay : List Reservation
  all : List Reservation
deriving DecidableEq, Repr

/-- `getReservationsWithCrossDay` (services.ts lines 1531-1687), as a pure
function of the stored reservation rows `rs`: the SQL fetches same-day rows
matching the status filter together with previous-day rows matching the filter
that pass `prevDayCandidate`; the loop then puts same-day rows in `sameDay` and
previous-day rows passing `isReservationActiveOnDate` in `previousDay`;
`all = sameDay ++ previousDay`. -/
def getReservationsWithCrossDay (rs : List Reservation) (date : Int)
    (filter : StatusFilter) : CrossDayResult :=
  let fetched := rs.filter fun r =>
    (r.reservation_date == date && matchesFilter filter r.status) ||
      (r.reservation_date == date - 1 && matchesFilter filter r.status &&
        prevDayCandidate r)
  let sameDay := fetched.filter fun r => r.reservation_date == date
  let previousDay := (fetched.filter fun r => !(r.reservation_date == date)).filter
    fun r => isReservationActiveOnDate r date
  { sameDay := sameDay, previousDay := previousDay, all := sameDay ++ previousDay }

/-- `checkTableAvailability` (services.ts lines 1059-1118): fetch the cross-day
result with status filter `all`, keep this table's active-or-completed rows
minus the excluded id, and report available iff none overlaps the candidate
interval under the half-open rule `newStart < resEnd && resStart < newEnd`. -/
def checkTableAvailability (rs : List Reservation) (tableId : Nat) (date : Int)
    (time : Nat) (durationHours : ℚ) (excludeReservationId : Option Nat) : Bool :=
  let result := getReservationsWithCrossDay rs date StatusFilter.all
  let allReservations := result.sameDay ++ result.previousDay
  let tableReservations := allReservations.filter fun r =>
    r.table_id == tableId &&
      (r.status == Status.active || r.status == Status.completed) &&
      (match excludeReservationId with
        | none => true
        | some e => r.id != e)
  let hasConflict := tableReservations.any fun r =>
    decide (instant date time < endInstant r) &&
      decide (startInstant r < candidateEnd date time durationHours)
  !hasConflict

/-- `prevDayCandidate` unfolded to a proposition. -/
theorem prevDayCandidate_iff (r : Reservation) :
    prevDayCandidate r = true ↔
      (r.duration_hours = -1 ∨
        (0 < r.duration_hours ∧
          24 < (hourOf r.reservation_time : ℚ) + r.duration_hours)) := by
  rw [prevDayCandidate]
  simp only [Bool.or_eq_true, Bool.and_eq_true, beq_iff_eq, decide_eq_true_eq,
    gt_iff_lt]

/-- For a previous-day reservation, `isReservationActiveOnDate` unfolded to a
proposition (the `daysDiff === 1` guard passes). -/
theorem isReservationActiveOnDate_prev (r : Reservation) (date : Int)
    (hdate : r.reservation_date = date - 1) :
    (isReservationActiveOnDate r date = true) ↔
      (if r.duration_hours = -1 then
          (24 * date : ℚ) < 24 * ((r.reservation_date : ℚ) + 1) + 6
        else (24 * date : ℚ) < startInstant r + r.duration_hours) := by
  rw [isReservationActiveOnDate]
  have h1 : date - r.reservation_date = 1 := by omega
  rw [h1, if_neg (by simp : ¬ (1 : ℤ) ≠ 1)]
  by_cases hdur : r.duration_hours = -1
  · rw [if_pos hdur, if_pos hdur]
    exact decide_eq_true_iff
  · rw [if_neg hdur, if_neg hdur]
    exact decide_eq_true_iff

/-- The SQL fetch predicate of `getReservationsWithCrossDay` unfolded. -/
theorem fetched_iff (r : Reservation) (date : Int) (f : StatusFilter) :
    ((r.reservation_date == date && matchesFilter f r.status) ||
        (r.reservation_date == date - 1 && matchesFilter f r.status &&
          prevDayCandidate r)) = true ↔
      ((r.reservation_date = date ∧ matchesFilter f r.status = true) ∨
        (r.reservation_date = date - 1 ∧ matchesFilter f r.status = true ∧
          prevDayCandidate r = true)) := by
  simp only [Bool.or_eq_true, Bool.and_eq_true, beq_iff_eq, and_assoc]

/-- Day 0 of the embedding stands for 2025-08-26; this is the spec's example
reservation "2025-08-26 at 22:00 for 4 hours" (active). -/
def res2200for4 : Reservation :=
  { id := 101, table_id := 1, guest_name := "Anna", guest_phone := none,
    party_size := 2, reservation_date := 0, reservation_time := 1320,
    duration_hours := 4, notes := none, status := Status.active,
    employee_id := none }

/-- The spec's example reservation "2025-08-26 at 18:00 indefinite" (active). -/
def res1800indef : Reservation :=
  { id := 102, table_id := 1, guest_name := "Piotr", guest_phone := none,
    party_size := 3, reservation_date := 0, reservation_time := 1080,
    duration_hours := -1, notes := none, status := Status.active,
    employee_id := none }

/-- C3: `getReservationsWithCrossDay(date, statusFilter)` returns
`sameDay` = the reservations dated `date` matching the filter; `previousDay` =
exactly the reservations dated `date - 1` matching the filter that are
indefinite or whose start-hour + duration exceeds 24, and that are still active
on `date` (indefinite: `date`'s midnight is before the 06:00 mark of the day
after the start date; finite: end instant strictly after `date`'s midnight);
`all = sameDay ++ previousDay`.  In particular, for target 2025-08-27 (day 1)
with filter `active`, the 22:00 + 4h reservation of day 0 is in `previousDay`,
and the 18:00 indefinite one is in `previousDay` for day 1 but not day 2. -/
theorem getReservationsWithCrossDay_spec (rs : List Reservation) (date : Int)
    (f : StatusFilter) :
    (∀ r, r ∈ (getReservationsWithCrossDay rs date f).sameDay ↔
        r ∈ rs ∧ r.reservation_date = date ∧ matchesFilter f r.status = true) ∧
    (∀ r, r ∈ (getReservationsWithCrossDay rs date f).previousDay ↔
        r ∈ rs ∧ r.reservation_date = date - 1 ∧ matchesFilter f r.status = true ∧
          (r.duration_hours = -1 ∨
            (0 < r.duration_hours ∧
              24 < (hourOf r.reservation_time : ℚ) + r.duration_hours)) ∧
          (if r.duration_hours = -1 then
              (24 * date : ℚ) < 24 * ((r.reservation_date : ℚ) + 1) + 6
            else (24 * date : ℚ) < startInstant r + r.duration_hours)) ∧
    (getReservationsWithCrossDay rs date f).all =
      (getReservationsWithCrossDay rs date f).sameDay ++
        (getReservationsWithCrossDay rs date f).previousDay ∧
    res2200for4 ∈
      (getReservationsWithCrossDay [res2200for4, res1800indef] 1
        StatusFilter.active).previousDay ∧
    res1800indef ∈
      (getReservationsWithCrossDay [res2200for4, res1800indef] 1
        StatusFilter.active).previousDay ∧
    res1800indef ∉
      (getReservationsWithCrossDay [res2200for4, res1800indef] 2
        StatusFilter.active).previousDay := by
  have hday1 : (getReservationsWithCrossDay [res2200for4, res1800indef] 1
      StatusFilter.active).previousDay = [res2200for4, res1800indef] := by
    norm_num [getReservationsWithCrossDay, prevDayCandidate,
      isReservationActiveOnDate, matchesFilter, startInstant, instant, hourOf,
      res2200for4, res1800indef]
  have hday2 : (getReservationsWithCrossDay [res2200for4, res1800indef] 2
      StatusFilter.active).previousDay = [] := by
    norm_num [getReservationsWithCrossDay, prevDayCandidate,
      isReservationActiveOnDate, matchesFilter, startInstant, instant, hourOf,
      res2200for4, res1800indef]
  refine ⟨?_, ?_, rfl, ?_, ?_, ?_⟩
  · intro r
    simp only [getReservationsWithCrossDay, List.mem_filter, fetched_iff,
      beq_iff_eq]
    constructor
    · rintro ⟨⟨hmem, hf⟩, hdate⟩
      rcases hf with ⟨_, hm⟩ | ⟨_, hm, _⟩ <;> exact ⟨hmem, hdate, hm⟩
    · rintro ⟨hmem, hdate, hm⟩
      exact ⟨⟨hmem, Or.inl ⟨hdate, hm⟩⟩, hdate⟩
  · intro r
    simp only [getReservationsWithCrossDay, List.mem_filter, fetched_iff,
      Bool.not_eq_true', beq_eq_false_iff_ne]
    constructor
    · rintro ⟨⟨⟨hmem, hf⟩, hne⟩, hact⟩
      rcases hf with ⟨hdate, _⟩ | ⟨hdate, hm, hc⟩
      · exact absurd hdate hne
      · exact ⟨hmem, hdate, hm, (prevDayCandidate_iff r).mp hc,
          (isReservationActiveOnDate_prev r date hdate).mp hact⟩
    · rintro ⟨hmem, hdate, hm, hc, hact⟩
      have hne : r.reservation_date ≠ date := by omega
      exact ⟨⟨⟨hmem, Or.inr ⟨hdate, hm, (prevDayCandidate_iff r).mpr hc⟩⟩, hne⟩,
        (isReservationActiveOnDate_prev r date hdate).mpr hact⟩
  · rw [hday1]
    exact List.mem_cons_self _ _
  · rw [hday1]
    exact List.mem_cons_of_mem _ (List.mem_cons_self _ _)
  · rw [hday2]
    exact List.not_mem_nil _

/-- The hour component underestimates the exact time-of-day in hours. -/
theorem hourOf_le (t : Nat) : ((hourOf t : ℕ) : ℚ) ≤ (t : ℚ) / 60 := by
  rw [hourOf, le_div_iff₀ (by norm_num : (0 : ℚ) < 60)]
  exact_mod_cast Nat.div_mul_le_self t 60

/-- A previous-day row passing the SQL pre-filter is automatically still
active on the target date, so the `isReservationActiveOnDate` re-check never
removes anything the pre-filter kept. -/
theorem prevDayCandidate_still_active (r : Reservation) (date : Int)
    (hdate : r.reservation_date = date - 1) (hc : prevDayCandidate r = true) :
    isReservationActiveOnDate r date = true := by
  rw [isReservationActiveOnDate_prev r date hdate]
  rcases (prevDayCandidate_iff r).mp hc with hdur | ⟨hpos, hsum⟩
  · rw [if_pos hdur, hdate]
    push_cast
    linarith
  · have hdur' : r.duration_hours ≠ -1 := by
      intro h
      rw [h] at hpos
      norm_num at hpos
    rw [if_neg hdur']
    have hle := hourOf_le r.reservation_time
    rw [startInstant, instant, hdate]
    push_cast
    linarith

/-- Membership in `sameDay` for the `all` status filter. -/
theorem mem_sameDayAll (rs : List Reservation) (date : Int) (r : Reservation) :
    r ∈ (getReservationsWithCrossDay rs date StatusFilter.all).sameDay ↔
      r ∈ rs ∧ r.reservation_date = date := by
  simp only [getReservationsWithCrossDay, List.mem_filter, fetched_iff,
    beq_iff_eq]
  simp only [matchesFilter, eq_self_iff_true, true_and, and_true]
  constructor
  · rintro ⟨⟨hmem, _⟩, hdate⟩
    exact ⟨hmem, hdate⟩
  · rintro ⟨hmem, hdate⟩
    exact ⟨⟨hmem, Or.inl hdate⟩, hdate⟩

/-- Membership in `previousDay` for the `all` status filter: the
still-active re-check is absorbed by `prevDayCandidate_still_active`. -/
theorem mem_previousDayAll (rs : List Reservation) (date : Int) (r : Reservation) :
    r ∈ (getReservationsWithCrossDay rs date StatusFilter.all).previousDay ↔
      r ∈ rs ∧ r.reservation_date = date - 1 ∧ prevDayCandidate r = true := by
  simp only [getReservationsWithCrossDay, List.mem_filter, fetched_iff,
    Bool.not_eq_true', beq_eq_false_iff_ne]
  simp only [matchesFilter, eq_self_iff_true, true_and, and_true]
  constructor
  · rintro ⟨⟨⟨hmem, hf⟩, hne⟩, _⟩
    rcases hf with hdate | ⟨hdate, hc⟩
    · exact absurd hdate hne
    · exact ⟨hmem, hdate, hc⟩
  · rintro ⟨hmem, hdate, hc⟩
    have hne : r.reservation_date ≠ date := by omega
    exact ⟨⟨⟨hmem, Or.inr ⟨hdate, hc⟩⟩, hne⟩,
      prevDayCandidate_still_active r date hdate hc⟩

/-- A status is kept by the availability filter iff it is not cancelled. -/
theorem not_cancelled_iff (s : Status) :
    ((s == Status.active || s == Status.completed) = true) ↔
      s ≠ Status.cancelled := by
  cases s <;> decide

/-- The exclude-id match of `checkTableAvailability` as a proposition. -/
theorem excludeMatch_iff (ex : Option Nat) (i : Nat) :
    ((match ex with
      | none => true
      | some e => i != e) = true) ↔ ex ≠ some i := by
  cases ex with
  | none => simp
  | some e =>
    simp only [bne_iff_ne, ne_eq, Option.some.injEq]
    exact ne_comm

/-- Availability as claim C2 words it (the spec-side reference definition for
the comparison): available iff no other not-cancelled reservation on the same
table, dated the target date or the previous date and not excluded, overlaps
the candidate interval, all intervals computed by the finite/indefinite rule
of §4.2. -/
def availabilityPerSpec (rs : List Reservation) (tableId : Nat) (date : Int)
    (time : Nat) (durationHours : ℚ) (excludeReservationId : Option Nat) : Bool :=
  !(rs.any fun r =>
    (r.reservation_date == date || r.reservation_date == date - 1) &&
      r.table_id == tableId && !(r.status == Status.cancelled) &&
      (match excludeReservationId with
        | none => true
        | some e => r.id != e) &&
      (decide (instant date time < endInstant r) &&
        decide (startInstant r < candidateEnd date time durationHours)))

/-- A reservation at 23:15 for 1 hour on day 0: it crosses midnight (it ends
00:15 on day 1) but `EXTRACT(HOUR) + duration = 23 + 1` is not `> 24`. -/
def res2315for1 : Reservation :=
  { id := 103, table_id := 1, guest_name := "Marek", guest_phone := none,
    party_size := 2, reservation_date := 0, reservation_time := 1395,
    duration_hours := 1, notes := none, status := Status.active,
    employee_id := none }

/-- C2, counterexample: with one active 23:15 + 1h reservation on day 0 on
table 1, a candidate booking on table 1, day 1, 00:00, 2 hours overlaps it
([23.25, 24.25) against [24, 26) in hours), so the claimed rule reports
unavailable; `checkTableAvailability` nevertheless returns true, because the
hour-based previous-day pre-filter drops the reservation. -/
theorem checkTableAvailability_counterexample :
    checkTableAvailability [res2315for1] 1 1 0 2 none = true ∧
      availabilityPerSpec [res2315for1] 1 1 0 2 none = false := by
  constructor
  · norm_num [checkTableAvailability, getReservationsWithCrossDay,
      prevDayCandidate, isReservationActiveOnDate, matchesFilter, startInstant,
      instant, hourOf, endInstant, candidateEnd, res2315for1]
  · norm_num [availabilityPerSpec, res2315for1, endInstant, candidateEnd,
      startInstant, instant, hourOf]
    decide

/-- C2, amended: `checkTableAvailability(table, date, time, d, excludeId?)`
returns true iff no other reservation on the same table with status active or
completed, excluding `excludeId`, that is dated the target date, or dated the
previous date and passing the hour-based cross-midnight pre-filter
(indefinite, or start-hour + duration > 24, minutes dropped), overlaps the
candidate interval [S, E) under the half-open rule
`S < E_existing && S_existing < E`, where E = S + d for finite d and E = the
06:00 mark on the day after S's date for indefinite d = -1, existing
intervals computed by the same rule. -/
theorem checkTableAvailability_spec (rs : List Reservation) (tableId : Nat)
    (date : Int) (time : Nat) (dur : ℚ) (ex : Option Nat) :
    checkTableAvailability rs tableId date time dur ex = true ↔
      ∀ r ∈ rs, r.table_id = tableId → r.status ≠ Status.cancelled →
        ex ≠ some r.id →
        (r.reservation_date = date ∨
          (r.reservation_date = date - 1 ∧
            (r.duration_hours = -1 ∨
              (0 < r.duration_hours ∧
                24 < (hourOf r.reservation_time : ℚ) + r.duration_hours)))) →
        ¬(instant date time < endInstant r ∧
            startInstant r < candidateEnd date time dur) := by
  simp only [checkTableAvailability, Bool.not_eq_true', List.any_eq_false,
    List.mem_filter, List.mem_append, mem_sameDayAll, mem_previousDayAll,
    Bool.and_eq_true, beq_iff_eq, not_cancelled_iff, excludeMatch_iff,
    decide_eq_true_eq, prevDayCandidate_iff, not_and]
  constructor
  · intro h r hmem htab hst hex hdd hlt
    rcases hdd with hsame | ⟨hprev, hcand⟩
    · exact h r ⟨Or.inl ⟨hmem, hsame⟩, ⟨htab, hst⟩, hex⟩ hlt
    · exact h r ⟨Or.inr ⟨hmem, hprev, hcand⟩, ⟨htab, hst⟩, hex⟩ hlt
  · intro h r hr
    rcases hr with ⟨hin, ⟨htab, hst⟩, hex⟩
    rcases hin with ⟨hmem, hsame⟩ | ⟨hmem, hprev, hcand⟩
    · exact h r hmem htab hst hex (Or.inl hsame)
    · exact h r hmem htab hst hex (Or.inr ⟨hprev, hcand⟩)

/-- Service-level failures of `updateReservation`/`deleteReservation`
(services.ts: thrown `Error`s) and an injected storage failure for the
activity-log write. -/
inductive SvcError where
  | notFound
  | notStarted
  | noFields
  | logFailed
deriving DecidableEq, Repr

/-- `action_type` of an activity log row (`schema.sql` line 84). -/
inductive ActionType where
  | updated
  | cancelled
deriving DecidableEq, Repr

/-- The field-change map built by `calculateFieldChanges` (services.ts lines
697-797): for each updatable column, `none` when the column is absent from the
patch or unchanged, `some (old, new)` otherwise. -/
structure FieldChanges where
  table_id : Option (Nat × Nat) := none
  guest_name : Option (String × String) := none
  guest_phone : Option (String × String) := none
  party_size : Option (Nat × Nat) := none
  reservation_date : Option (Int × Int) := none
  reservation_time : Option (Nat × Nat) := none
  duration_hours : Option (ℚ × ℚ) := none
  notes : Option (String × String) := none
  status : Option (Status × Status) := none
deriving DecidableEq, Repr

/-- `Object.keys(filteredChanges).length > 0` test: the map holds no change. -/
def FieldChanges.isEmpty (fc : FieldChanges) : Bool :=
  fc.table_id.isNone && fc.guest_name.isNone && fc.guest_phone.isNone &&
    fc.party_size.isNone && fc.reservation_date.isNone &&
    fc.reservation_time.isNone && fc.duration_hours.isNone &&
    fc.notes.isNone && fc.status.isNone

/-- One activity-log row as written by `createActivityLogWithClient`
(services.ts lines 663-680, 1023-1045). -/
structure ActivityLogEntry where
  reservation_id : Nat
  action_type : ActionType
  field_changes : FieldChanges
  reservation_snapshot : Reservation
deriving DecidableEq, Repr

/-- The patch accepted by `updateReservation` (`UpdateReservationInput` plus
the `complete_now` flag): absent fields are `none`. -/
structure UpdateInput where
  table_id : Option Nat := none
  guest_name : Option String := none
  guest_phone : Option String := none
  party_size : Option Nat := none
  reservation_date : Option Int := none
  reservation_time : Option Nat := none
  duration_hours : Option ℚ := none
  notes : Option String := none
  status : Option Status := none
  complete_now : Bool := false
deriving DecidableEq, Repr

/-- `fields.length === 0` test of the dynamic UPDATE builder
(services.ts lines 597-640). -/
def UpdateInput.hasField (u : UpdateInput) : Bool :=
  u.table_id.isSome || u.guest_name.isSome || u.guest_phone.isSome ||
    u.party_size.isSome || u.reservation_date.isSome ||
    u.reservation_time.isSome || u.duration_hours.isSome || u.notes.isSome ||
    u.status.isSome

/-- `normalizeDuration` (services.ts lines 706-715): `-1` stays the sentinel,
anything else is rounded to one decimal. -/
def normalizeDuration (d : ℚ) : ℚ := if d = -1 then -1 else roundTo1 d

/-- `calculateFieldChanges` (services.ts lines 697-797).  Dates and times are
compared after normalization (`extractDateString`, `normalizeTimeFormat`),
which is the identity in this embedding; `guest_phone` and `notes` compare the
stored value with `null` coalesced to the empty string; durations are compared
after `normalizeDuration` and the normalized values are stored. -/
def calculateFieldChanges (cur : Reservation) (upd : UpdateInput) : FieldChanges :=
  { table_id :=
      match upd.table_id with
      | some v => if v ≠ cur.table_id then some (cur.table_id, v) else none
      | none => none,
    guest_name :=
      match upd.guest_name with
      | some v => if v ≠ cur.guest_name then some (cur.guest_name, v) else none
      | none => none,
    guest_phone :=
      match upd.guest_phone with
      | some v =>
        if v ≠ cur.guest_phone.getD "" then some (cur.guest_phone.getD "", v)
        else none
      | none => none,
    party_size :=
      match upd.party_size with
      | some v => if v ≠ cur.party_size then some (cur.party_size, v) else none
      | none => none,
    reservation_date :=
      match upd.reservation_date with
      | some v =>
        if v ≠ cur.reservation_date then some (cur.reservation_date, v) else none
      | none => none,
    reservation_time :=
      match upd.reservation_time with
      | some v =>
        if v ≠ cur.reservation_time then some (cur.reservation_time, v) else none
      | none => none,
    duration_hours :=
      match upd.duration_hours with
      | some v =>
        if normalizeDuration v ≠ normalizeDuration cur.duration_hours then
          some (normalizeDuration cur.duration_hours, normalizeDuration v)
        else none
      | none => none,
    notes :=
      match upd.notes with
      | some v =>
        if v ≠ cur.notes.getD "" then some (cur.notes.getD "", v) else none
      | none => none,
    status :=
      match upd.status with
      | some v => if v ≠ cur.status then some (cur.status, v) else none
      | none => none }

/-- The completion exclusion (services.ts lines 572-590): when the computed
change map records `status: active → completed`, both the status change and
the `duration_hours` change are removed before logging. -/
def filterCompletionChanges (fc : FieldChanges) : FieldChanges :=
  if fc.status = some (Status.active, Status.completed) then
    { fc with status := none, duration_hours := none }
  else fc

/-- The dynamic `UPDATE ... SET` of `updateReservation` (services.ts lines
601-652): provided fields overwrite, absent fields keep their value. -/
def applyUpdate (cur : Reservation) (upd : UpdateInput) : Reservation :=
  { cur with
    table_id := upd.table_id.getD cur.table_id,
    guest_name := upd.guest_name.getD cur.guest_name,
    guest_phone :=
      match upd.guest_phone with
      | some v => some v
      | none => cur.guest_phone,
    party_size := upd.party_size.getD cur.party_size,
    reservation_date := upd.reservation_date.getD cur.reservation_date,
    reservation_time := upd.reservation_time.getD cur.reservation_time,
    duration_hours := upd.duration_hours.getD cur.duration_hours,
    notes :=
      match upd.notes with
      | some v => some v
      | none => cur.notes,
    status := upd.status.getD cur.status }

/-- The `complete_now` pre-processing of `updateReservation` (services.ts
lines 539-567): completing an indefinite reservation computes the elapsed
time against `now`, rejects a not-yet-started reservation, and otherwise
overwrites `duration_hours` in the patch with
`max(0.1, round(elapsed_hours, 1))`, uncapped. -/
def effectiveUpdate (now : ℚ) (cur : Reservation) (upd : UpdateInput) :
    Except SvcError UpdateInput :=
  if upd.complete_now = true ∧ upd.status = some Status.completed ∧
      cur.duration_hours = -1 then
    if now - startInstant cur ≤ 0 then Except.error SvcError.notStarted
    else
      Except.ok
        { upd with
          duration_hours := some (max (1 / 10) (roundTo1 (now - startInstant cur))) }
  else Except.ok upd

/-- `updateReservation` (services.ts lines 526-694) on one current row,
returning the updated row and the activity-log entry it writes, if any.
The storage step order (field diff, completion filter, UPDATE, conditional
log write) matches the source; errors thrown before or inside the transaction
leave every row untouched (the transaction semantics are modelled separately
for the atomicity claim). -/
def updateReservation (now : ℚ) (cur : Reservation) (upd0 : UpdateInput) :
    Except SvcError (Reservation × Option ActivityLogEntry) :=
  match effectiveUpdate now cur upd0 with
  | Except.error e => Except.error e
  | Except.ok upd =>
    if upd.hasField = false then Except.error SvcError.noFields
    else
      let filteredChanges := filterCompletionChanges (calculateFieldChanges cur upd)
      let result := applyUpdate cur upd
      Except.ok (result,
        if filteredChanges.isEmpty then none
        else
          some
            { reservation_id := cur.id,
              action_type :=
                if upd.status = some Status.cancelled then ActionType.cancelled
                else ActionType.updated,
              field_changes := filteredChanges,
              reservation_snapshot := result })

/-- `deleteReservation` (services.ts lines 994-1056) on one current row: a
logical cancellation that keeps the row, plus its `cancelled` log entry with
the status change and a full snapshot taken at the new status. -/
def deleteReservation (cur : Reservation) : Reservation × ActivityLogEntry :=
  ({ cur with status := Status.cancelled },
    { reservation_id := cur.id,
      action_type := ActionType.cancelled,
      field_changes := { status := some (cur.status, Status.cancelled) },
      reservation_snapshot := { cur with status := Status.cancelled } })

/-- The finite sweep SELECT (services.ts lines 1734-1742): active rows with a
positive duration whose end instant has passed. -/
def regularExpired (now : ℚ) (r : Reservation) : Bool :=
  decide (0 < r.duration_hours) && r.status == Status.active &&
    decide (startInstant r + r.duration_hours < now)

/-- The indefinite sweep SELECT (services.ts lines 1770-1778): active
indefinite rows started more than 6 hours before `now`. -/
def indefiniteExpired (now : ℚ) (r : Reservation) : Bool :=
  r.duration_hours == -1 && r.status == Status.active &&
    decide (startInstant r + 6 < now)

/-- The duration stored by the indefinite sweep (services.ts line 1798):
`Math.max(0.1, Math.min(6, Math.round(elapsedHours * 10) / 10))`. -/
def sweepDuration (now : ℚ) (r : Reservation) : ℚ :=
  max (1 / 10) (min 6 (roundTo1 (now - startInstant r)))

/-- One iteration of the finite sweep loop (services.ts lines 1747-1767). -/
def sweepFiniteRow (now : ℚ) (r : Reservation) : Reservation :=
  if regularExpired now r then
    match updateReservation now r { status := some Status.completed } with
    | Except.ok (r2, _) => r2
    | Except.error _ => r
  else r

/-- One iteration of the indefinite sweep loop (services.ts lines 1783-1819). -/
def sweepIndefiniteRow (now : ℚ) (r : Reservation) : Reservation :=
  if indefiniteExpired now r then
    match
      updateReservation now r
        { status := some Status.completed,
          duration_hours := some (sweepDuration now r) } with
    | Except.ok (r2, _) => r2
    | Except.error _ => r
  else r

/-- `autoCompleteExpiredReservations` (services.ts lines 1727-1824): the finite
sweep selects and completes its rows through `updateReservation`, then the
indefinite sweep runs against the resulting state; each per-row update that
failed would be caught and skipped (the fallback branch), and the function
returns the number of rows completed. -/
def autoCompleteExpiredReservations (now : ℚ) (rs : List Reservation) :
    List Reservation × Nat :=
  let afterRegular := rs.map (sweepFiniteRow now)
  let regularCount := (rs.filter (regularExpired now)).length
  let afterIndefinite := afterRegular.map (sweepIndefiniteRow now)
  let indefiniteCount := (afterRegular.filter (indefiniteExpired now)).length
  (afterIndefinite, regularCount + indefiniteCount)

/-- A status-only completion of an active row succeeds, flips the status, and
writes no activity log (the completion exclusion empties the change map). -/
theorem updateReservation_completeStatus (now : ℚ) (r : Reservation)
    (h : r.status = Status.active) :
    updateReservation now r { status := some Status.completed } =
      Except.ok ({ r with status := Status.completed }, none) := by
  simp [updateReservation, effectiveUpdate, UpdateInput.hasField,
    calculateFieldChanges, filterCompletionChanges, FieldChanges.isEmpty,
    applyUpdate, h]

/-- A completion that also sets the sweep-computed duration on an active
indefinite row succeeds, applies both fields, and writes no activity log. -/
theorem updateReservation_completeSweep (now : ℚ) (r : Reservation)
    (h : r.status = Status.active) :
    updateReservation now r
        { status := some Status.completed,
          duration_hours := some (sweepDuration now r) } =
      Except.ok
        ({ r with status := Status.completed,
                  duration_hours := sweepDuration now r },
          none) := by
  simp [updateReservation, effectiveUpdate, UpdateInput.hasField,
    calculateFieldChanges, filterCompletionChanges, FieldChanges.isEmpty,
    applyUpdate, h]

/-- Evaluation of one finite-sweep iteration: the per-row update cannot fail,
so the row is completed exactly when `regularExpired` selected it. -/
theorem sweepFiniteRow_eq (now : ℚ) (r : Reservation) :
    sweepFiniteRow now r =
      if regularExpired now r then { r with status := Status.completed }
      else r := by
  rw [sweepFiniteRow]
  by_cases h : regularExpired now r = true
  · have hact : r.status = Status.active := by
      simp only [regularExpired, Bool.and_eq_true, beq_iff_eq,
        decide_eq_true_eq] at h
      exact h.1.2
    rw [if_pos h, if_pos h, updateReservation_completeStatus now r hact]
  · rw [if_neg h, if_neg h]

/-- Evaluation of one indefinite-sweep iteration. -/
theorem sweepIndefiniteRow_eq (now : ℚ) (r : Reservation) :
    sweepIndefiniteRow now r =
      if indefiniteExpired now r then
        { r with status := Status.completed,
                 duration_hours := sweepDuration now r }
      else r := by
  rw [sweepIndefiniteRow]
  by_cases h : indefiniteExpired now r = true
  · have hact : r.status = Status.active := by
      simp only [indefiniteExpired, Bool.and_eq_true, beq_iff_eq,
        decide_eq_true_eq] at h
      exact h.1.2
    rw [if_pos h, if_pos h, updateReservation_completeSweep now r hact]
  · rw [if_neg h, if_neg h]

/-- The finite sweep never makes a row eligible for (or removes it from) the
indefinite sweep: it only completes rows with a positive duration. -/
theorem indefiniteExpired_sweepFiniteRow (now : ℚ) (r : Reservation) :
    indefiniteExpired now (sweepFiniteRow now r) = indefiniteExpired now r := by
  rw [sweepFiniteRow_eq]
  by_cases h : regularExpired now r = true
  · rw [if_pos h]
    simp only [regularExpired, Bool.and_eq_true, beq_iff_eq,
      decide_eq_true_eq] at h
    have hne : r.duration_hours ≠ -1 := by
      intro hh
      rw [hh] at h
      norm_num at h
    have hb : (r.duration_hours == -1) = false := beq_eq_false_iff_ne.mpr hne
    simp [indefiniteExpired, hb]
  · rw [if_neg h]

/-- Filtering with two pointwise-exclusive predicates splits the length of
the filter by their disjunction. -/
theorem length_filter_disjoint {α : Type} (p q : α → Bool) (l : List α)
    (h : ∀ a ∈ l, ¬(p a = true ∧ q a = true)) :
    (l.filter p).length + (l.filter q).length =
      (l.filter fun a => p a || q a).length := by
  induction l with
  | nil => rfl
  | cons a t ih =>
    have ht : ∀ x ∈ t, ¬(p x = true ∧ q x = true) := fun x hx =>
      h x (List.mem_cons_of_mem a hx)
    have ha := h a (List.mem_cons_self a t)
    by_cases hp : p a = true
    · have hq : q a = false := by
        cases hqt : q a
        · rfl
        · exact absurd ⟨hp, hqt⟩ ha
      rw [List.filter_cons, List.filter_cons, List.filter_cons, if_pos hp,
        if_neg (by simp [hq]), if_pos (by simp [hp])]
      simp only [List.length_cons]
      rw [← ih ht]
      omega
    · have hp2 : p a = false := by
        cases hpt : p a
        · rfl
        · exact absurd hpt hp
      by_cases hq : q a = true
      · rw [List.filter_cons, List.filter_cons, List.filter_cons,
          if_neg (by simp [hp2]), if_pos hq, if_pos (by simp [hq])]
        simp only [List.length_cons]
        rw [← ih ht]
        omega
      · have hq2 : q a = false := by
          cases hqt : q a
          · rfl
          · exact absurd hqt hq
        rw [List.filter_cons, List.filter_cons, List.filter_cons,
          if_neg (by simp [hp2]), if_neg (by simp [hq2]),
          if_neg (by simp [hp2, hq2])]
        exact ih ht

/-- C5: one invocation of `autoCompleteExpiredReservations(now)` keeps every
row, completes exactly the active finite rows whose `start + duration` is
before `now` (duration untouched) and exactly the active indefinite rows with
`start + 6h` before `now` (duration set to the elapsed hours rounded to one
decimal and clamped to [0.1, 6], so a sweep-stored duration never exceeds 6),
leaves every other row unchanged, and returns the number of rows it
completed. -/
theorem autoCompleteExpiredReservations_spec (now : ℚ) (rs : List Reservation) :
    (autoCompleteExpiredReservations now rs).1.length = rs.length ∧
    (∀ i, ∀ hi : i < rs.length,
      ∀ hi2 : i < (autoCompleteExpiredReservations now rs).1.length,
      (rs[i].status = Status.active → 0 < rs[i].duration_hours →
          startInstant rs[i] + rs[i].duration_hours < now →
          (autoCompleteExpiredReservations now rs).1[i] =
            { rs[i] with status := Status.completed }) ∧
      (rs[i].status = Status.active → rs[i].duration_hours = -1 →
          startInstant rs[i] + 6 < now →
          (autoCompleteExpiredReservations now rs).1[i] =
            { rs[i] with status := Status.completed,
                         duration_hours := sweepDuration now rs[i] }) ∧
      (regularExpired now rs[i] = false → indefiniteExpired now rs[i] = false →
          (autoCompleteExpiredReservations now rs).1[i] = rs[i])) ∧
    ((autoCompleteExpiredReservations now rs).2 =
      (rs.filter fun r =>
        regularExpired now r || indefiniteExpired now r).length) ∧
    (∀ r, 1 / 10 ≤ sweepDuration now r ∧ sweepDuration now r ≤ 6) := by
  refine ⟨?_, ?_, ?_, ?_⟩
  · simp [autoCompleteExpiredReservations]
  · intro i hi hi2
    have hsnd : (autoCompleteExpiredReservations now rs).1[i] =
        sweepIndefiniteRow now (sweepFiniteRow now rs[i]) := by
      simp [autoCompleteExpiredReservations, List.getElem_map]
    refine ⟨?_, ?_, ?_⟩
    · intro h1 h2 h3
      have hreg : regularExpired now rs[i] = true := by
        simp [regularExpired, h1, h2, h3]
      have hind : indefiniteExpired now
          ({ rs[i] with status := Status.completed } : Reservation) = false := by
        simp [indefiniteExpired]
      rw [hsnd, sweepFiniteRow_eq, if_pos hreg, sweepIndefiniteRow_eq,
        if_neg (by simp [hind])]
    · intro h1 h2 h3
      have hreg : regularExpired now rs[i] = false := by
        norm_num [regularExpired, h2]
      have hind : indefiniteExpired now rs[i] = true := by
        simp [indefiniteExpired, h1, h2, h3]
      rw [hsnd, sweepFiniteRow_eq, if_neg (by simp [hreg]),
        sweepIndefiniteRow_eq, if_pos hind]
    · intro h1 h2
      rw [hsnd, sweepFiniteRow_eq, if_neg (by simp [h1]),
        sweepIndefiniteRow_eq, if_neg (by simp [h2])]
  · show (rs.filter (regularExpired now)).length +
        ((rs.map (sweepFiniteRow now)).filter (indefiniteExpired now)).length = _
    rw [List.filter_map, List.length_map,
      @List.filter_congr _ (indefiniteExpired now ∘ sweepFiniteRow now)
        (indefiniteExpired now) rs
        (fun a _ => indefiniteExpired_sweepFiniteRow now a)]
    refine length_filter_disjoint _ _ _ ?_
    rintro a _ ⟨hp, hq⟩
    simp only [regularExpired, Bool.and_eq_true, beq_iff_eq,
      decide_eq_true_eq] at hp
    simp only [indefiniteExpired, Bool.and_eq_true, beq_iff_eq,
      decide_eq_true_eq] at hq
    rw [hq.1.1] at hp
    norm_num at hp
  · intro r
    constructor
    · exact le_max_left _ _
    · exact max_le (by norm_num) (min_le_left _ _)

/-- Witness for `autoCompleteExpiredReservations_spec`: at `now = 40` (day 1,
16:00) the sweep completes the 18:00 indefinite reservation of day 0 and
stores the capped duration. -/
theorem autoCompleteExpiredReservations_spec_witness :
    (autoCompleteExpiredReservations 40 [res1800indef]).1.get
        ⟨0, by simp [autoCompleteExpiredReservations]⟩ =
      { res1800indef with status := Status.completed,
                          duration_hours := sweepDuration 40 res1800indef } := by
  rw [List.get_eq_getElem]
  exact ((autoCompleteExpiredReservations_spec 40 [res1800indef]).2.1 0
    (by norm_num) (by simp [autoCompleteExpiredReservations])).2.1 rfl rfl
    (by norm_num [startInstant, instant, res1800indef])

/-- C7: calling `updateReservation` with the `complete_now` flag and
`status = completed` on a reservation whose `duration_hours` is the indefinite
sentinel -1 fails with the not-yet-started error when `now - start ≤ 0`
(nothing is applied: the error is raised before any mutation), and otherwise
stores `duration_hours = max(0.1, round1(now - start))`, a formula with no
upper cap (unlike the sweep's 6-hour clamp). -/
theorem updateReservation_complete_now_spec (now : ℚ) (cur : Reservation)
    (upd : UpdateInput) (hcn : upd.complete_now = true)
    (hst : upd.status = some Status.completed)
    (hdur : cur.duration_hours = -1) :
    (now - startInstant cur ≤ 0 →
      updateReservation now cur upd = Except.error SvcError.notStarted) ∧
    (0 < now - startInstant cur →
      ∃ r2 log, updateReservation now cur upd = Except.ok (r2, log) ∧
        r2.duration_hours = max (1 / 10) (roundTo1 (now - startInstant cur))) := by
  constructor
  · intro hle
    simp [updateReservation, effectiveUpdate, hcn, hst, hdur, hle]
  · intro hpos
    have hgt := not_le.mpr hpos
    simp only [updateReservation, effectiveUpdate, hcn, hst, hdur, hgt,
      and_self, if_true, if_pos, eq_self_iff_true, if_neg, not_false_iff]
    rw [if_neg (by simp [UpdateInput.hasField])]
    exact ⟨_, _, rfl, by simp [applyUpdate]⟩

/-- Witness for `updateReservation_complete_now_spec`: manually completing the
18:00 indefinite reservation of day 0 at `now = 40` (day 1, 16:00, 22 elapsed
hours) stores duration 22 — beyond the sweep's 6-hour cap. -/
theorem updateReservation_complete_now_witness :
    (updateReservation 40 res1800indef
        { status := some Status.completed, complete_now := true }).toOption.map
        (fun p => p.1.duration_hours) = some 22 ∧ (6 : ℚ) < 22 := by
  obtain ⟨r2, log, heq, hdur⟩ :=
    (updateReservation_complete_now_spec 40 res1800indef
      { status := some Status.completed, complete_now := true } rfl rfl rfl).2
      (by norm_num [startInstant, instant, res1800indef])
  refine ⟨?_, by norm_num⟩
  rw [heq]
  have h22 : r2.duration_hours = 22 := by
    rw [hdur]
    norm_num [roundTo1, startInstant, instant, res1800indef]
  simp [Except.toOption, h22]

/-- C6: the audit filter.  For an active reservation: a notes-only edit writes
exactly one `updated` entry whose change map holds only the notes pair; an
explicit completion (status active→completed with its paired duration change)
and nothing else writes no entry; an unrelated field changed in the same call
is still logged (one `updated` entry holding only that field, the completion
pair stays excluded); cancelling writes one `cancelled` entry with the status
pair and a full snapshot; and whenever the change map is empty after the
exclusion, no entry is written. -/
theorem activityLog_filter_spec (now : ℚ) (cur : Reservation) (m : String)
    (d : ℚ) (hact : cur.status = Status.active) :
    (m ≠ cur.notes.getD "" →
      updateReservation now cur { notes := some m } =
        Except.ok ({ cur with notes := some m },
          some
            { reservation_id := cur.id,
              action_type := ActionType.updated,
              field_changes := { notes := some (cur.notes.getD "", m) },
              reservation_snapshot := { cur with notes := some m } })) ∧
    (∃ r2, updateReservation now cur
        { status := some Status.completed, duration_hours := some d } =
      Except.ok (r2, none)) ∧
    (m ≠ cur.notes.getD "" →
      updateReservation now cur
          { status := some Status.completed, duration_hours := some d,
            notes := some m } =
        Except.ok
          ({ cur with status := Status.completed,
                      duration_hours := d,
                      notes := some m },
            some
              { reservation_id := cur.id,
                action_type := ActionType.updated,
                field_changes := { notes := some (cur.notes.getD "", m) },
                reservation_snapshot :=
                  { cur with status := Status.completed,
                             duration_hours := d,
                             notes := some m } })) ∧
    (deleteReservation cur =
      ({ cur with status := Status.cancelled },
        { reservation_id := cur.id,
          action_type := ActionType.cancelled,
          field_changes := { status := some (cur.status, Status.cancelled) },
          reservation_snapshot := { cur with status := Status.cancelled } })) ∧
    (∀ upd : UpdateInput, upd.complete_now = false →
      ∀ r2 log, updateReservation now cur upd = Except.ok (r2, log) →
        (filterCompletionChanges (calculateFieldChanges cur upd)).isEmpty = true →
        log = none) := by
  refine ⟨?_, ?_, ?_, rfl, ?_⟩
  · intro hne
    simp [updateReservation, effectiveUpdate, UpdateInput.hasField,
      calculateFieldChanges, filterCompletionChanges, FieldChanges.isEmpty,
      applyUpdate, hne]
  · refine ⟨applyUpdate cur
      { status := some Status.completed, duration_hours := some d }, ?_⟩
    simp [updateReservation, effectiveUpdate, UpdateInput.hasField,
      calculateFieldChanges, filterCompletionChanges, FieldChanges.isEmpty,
      hact]
  · intro hne
    simp [updateReservation, effectiveUpdate, UpdateInput.hasField,
      calculateFieldChanges, filterCompletionChanges, FieldChanges.isEmpty,
      applyUpdate, hne, hact]
  · intro upd hcn r2 log heq hempty
    simp only [updateReservation, effectiveUpdate, hcn] at heq
    rw [if_neg (by simp)] at heq
    split at heq
    · exact Except.noConfusion heq
    · rename_i upd2 heq2
      injection heq2 with h2
      subst h2
      by_cases hf : upd.hasField = false
      · rw [if_pos hf] at heq
        exact Except.noConfusion heq
      · rw [if_neg hf, if_pos hempty] at heq
        simp only [Except.ok.injEq, Prod.mk.injEq] at heq
        exact heq.2.symm

/-- Witness for `activityLog_filter_spec`: editing only the notes of the
active 22:00 reservation writes exactly the one expected `updated` entry. -/
theorem activityLog_filter_spec_witness :
    updateReservation 0 res2200for4 { notes := some "VIP" } =
      Except.ok ({ res2200for4 with notes := some "VIP" },
        some
          { reservation_id := res2200for4.id,
            action_type := ActionType.updated,
            field_changes := { notes := some ("", "VIP") },
            reservation_snapshot := { res2200for4 with notes := some "VIP" } }) :=
  (activityLog_filter_spec 0 res2200for4 "VIP" 2 rfl).1 (by simp [res2200for4])

/-- A cancelled reservation (12:00 + 2h on day 0). -/
def resCancelled : Reservation :=
  { id := 104, table_id := 2, guest_name := "Ewa", guest_phone := none,
    party_size := 4, reservation_date := 0, reservation_time := 720,
    duration_hours := 2, notes := none, status := Status.cancelled,
    employee_id := none }

/-- C9, counterexample: `updateReservation` applies any caller-supplied
status without consulting the current one, so a cancelled reservation is
reactivated (cancelled → active), contradicting terminality. -/
theorem statusMonotonicity_counterexample :
    resCancelled.status = Status.cancelled ∧
    updateReservation 0 resCancelled { status := some Status.active } =
      Except.ok ({ resCancelled with status := Status.active },
        some
          { reservation_id := resCancelled.id,
            action_type := ActionType.updated,
            field_changes := { status := some (Status.cancelled, Status.active) },
            reservation_snapshot :=
              { resCancelled with status := Status.active } }) := by
  refine ⟨rfl, ?_⟩
  simp [updateReservation, effectiveUpdate, UpdateInput.hasField,
    calculateFieldChanges, filterCompletionChanges, FieldChanges.isEmpty,
    applyUpdate, resCancelled]

/-- C9, amended: `deleteReservation` only sets status to cancelled and keeps
the row; the sweep keeps every row and only ever moves an active row to
completed; `updateReservation` keeps the row but writes whatever status the
patch carries, without checking the current status — so active → completed
and active → cancelled are the only transitions the delete and sweep paths
produce, while the update path can also revive completed or cancelled rows.
No path removes a reservation. -/
theorem statusTransitions_spec (now : ℚ) (rs : List Reservation)
    (cur : Reservation) (upd : UpdateInput) :
    ((deleteReservation cur).1 = { cur with status := Status.cancelled }) ∧
    ((autoCompleteExpiredReservations now rs).1.length = rs.length) ∧
    (∀ i, ∀ hi : i < rs.length,
      ∀ hi2 : i < (autoCompleteExpiredReservations now rs).1.length,
      (autoCompleteExpiredReservations now rs).1[i].status = rs[i].status ∨
        (rs[i].status = Status.active ∧
          (autoCompleteExpiredReservations now rs).1[i].status =
            Status.completed)) ∧
    (∀ r2 log, updateReservation now cur upd = Except.ok (r2, log) →
      r2.status = upd.status.getD cur.status) := by
  refine ⟨rfl, by simp [autoCompleteExpiredReservations], ?_, ?_⟩
  · intro i hi hi2
    have hsnd : (autoCompleteExpiredReservations now rs).1[i] =
        sweepIndefiniteRow now (sweepFiniteRow now rs[i]) := by
      simp [autoCompleteExpiredReservations, List.getElem_map]
    rw [hsnd, sweepFiniteRow_eq, sweepIndefiniteRow_eq]
    by_cases hreg : regularExpired now rs[i] = true
    · have hact : rs[i].status = Status.active := by
        simp only [regularExpired, Bool.and_eq_true, beq_iff_eq,
          decide_eq_true_eq] at hreg
        exact hreg.1.2
      rw [if_pos hreg, if_neg (by simp [indefiniteExpired])]
      exact Or.inr ⟨hact, rfl⟩
    · rw [if_neg hreg]
      by_cases hind : indefiniteExpired now rs[i] = true
      · have hact : rs[i].status = Status.active := by
          simp only [indefiniteExpired, Bool.and_eq_true, beq_iff_eq,
            decide_eq_true_eq] at hind
          exact hind.1.2
        rw [if_pos hind]
        exact Or.inr ⟨hact, rfl⟩
      · rw [if_neg hind]
        exact Or.inl rfl
  · intro r2 log heq
    rw [updateReservation] at heq
    split at heq
    · exact Except.noConfusion heq
    · rename_i upd2 heq2
      have hstat : upd2.status = upd.status := by
        rw [effectiveUpdate] at heq2
        split at heq2
        · split at heq2
          · exact Except.noConfusion heq2
          · injection heq2 with h
            rw [← h]
        · injection heq2 with h
          rw [← h]
      by_cases hf : upd2.hasField = false
      · rw [if_pos hf] at heq
        exact Except.noConfusion heq
      · rw [if_neg hf] at heq
        simp only [Except.ok.injEq, Prod.mk.injEq] at heq
        rw [← heq.1]
        simp [applyUpdate, hstat]

/-- Witness for `statusTransitions_spec`: a status-only completion of the
active 22:00 reservation produces exactly the patched status. -/
theorem statusTransitions_spec_witness :
    ({ res2200for4 with status := Status.completed } : Reservation).status =
      Status.completed :=
  (statusTransitions_spec 0 [] res2200for4
      { status := some Status.completed }).2.2.2
    { res2200for4 with status := Status.completed } none
    (updateReservation_completeStatus 0 res2200for4 rfl)

/-- The storage state visible to the service layer: the reservations table
and the activity-log table. -/
structure DbState where
  reservations : List Reservation
  logs : List ActivityLogEntry
deriving DecidableEq, Repr

/-- The `transaction` combinator of `lib/database.ts` as used by
`updateReservation`/`deleteReservation`: the body produces a new state or an
error; commit keeps the body's state, any error rolls the whole state back. -/
def runTransaction {α : Type} (s : DbState)
    (body : Except SvcError (DbState × α)) : DbState × Except SvcError α :=
  match body with
  | Except.ok (s2, a) => (s2, Except.ok a)
  | Except.error e => (s, Except.error e)

/-- `SELECT ... WHERE r.id = $1` (`getReservationById`). -/
def findRow (rs : List Reservation) (id : Nat) : Option Reservation :=
  rs.find? fun r => r.id == id

/-- `UPDATE reservations ... WHERE id = $1`. -/
def setRow (rs : List Reservation) (id : Nat) (r2 : Reservation) :
    List Reservation :=
  rs.map fun r => if r.id = id then r2 else r

/-- `updateReservation` at the storage level (services.ts lines 526-694): the
row is fetched outside the transaction; the row update and the conditional
activity-log write run inside one transaction (`🔒 ATOMIC TRANSACTION`
comment, line 592); `logWriteFails` injects a failure of the
`log_reservation_activity` call. -/
def updateReservationTx (now : ℚ) (s : DbState) (id : Nat) (upd : UpdateInput)
    (logWriteFails : Bool) : DbState × Except SvcError Reservation :=
  match findRow s.reservations id with
  | none => (s, Except.error SvcError.notFound)
  | some cur =>
    match updateReservation now cur upd with
    | Except.error e => (s, Except.error e)
    | Except.ok (r2, log) =>
      runTransaction s
        (let s1 : DbState := { s with reservations := setRow s.reservations id r2 }
         match log with
         | none => Except.ok (s1, r2)
         | some entry =>
           if logWriteFails then Except.error SvcError.logFailed
           else Except.ok ({ s1 with logs := s1.logs ++ [entry] }, r2))

/-- `deleteReservation` at the storage level (services.ts lines 994-1056):
fetch outside the transaction, then cancel the row and write its log entry
inside one transaction. -/
def deleteReservationTx (s : DbState) (id : Nat) (logWriteFails : Bool) :
    DbState × Except SvcError Bool :=
  match findRow s.reservations id with
  | none => (s, Except.ok false)
  | some cur =>
    runTransaction s
      (let s1 : DbState :=
        { s with reservations := setRow s.reservations id (deleteReservation cur).1 }
       if logWriteFails then Except.error SvcError.logFailed
       else Except.ok ({ s1 with logs := s1.logs ++ [(deleteReservation cur).2] },
         true))

/-- C8: the row mutation and its activity-log write commit as one atomic
unit.  For both `updateReservationTx` and `deleteReservationTx`: on any error
(row missing, validation failure, or a failing log write) the state is
exactly the initial one, and on success the final state carries both the row
mutation and precisely the log entries the operation produces — there is no
partially-applied state. -/
theorem transaction_atomicity (now : ℚ) (s : DbState) (id : Nat)
    (upd : UpdateInput) (lf : Bool) :
    (∀ e, (updateReservationTx now s id upd lf).2 = Except.error e →
      (updateReservationTx now s id upd lf).1 = s) ∧
    (∀ r2, (updateReservationTx now s id upd lf).2 = Except.ok r2 →
      ∃ cur log, findRow s.reservations id = some cur ∧
        updateReservation now cur upd = Except.ok (r2, log) ∧
        (updateReservationTx now s id upd lf).1 =
          { s with reservations := setRow s.reservations id r2,
                   logs := s.logs ++ log.toList }) ∧
    (∀ e, (deleteReservationTx s id lf).2 = Except.error e →
      (deleteReservationTx s id lf).1 = s) ∧
    ((deleteReservationTx s id lf).2 = Except.ok true →
      ∃ cur, findRow s.reservations id = some cur ∧
        (deleteReservationTx s id lf).1 =
          { s with
            reservations :=
              setRow s.reservations id { cur with status := Status.cancelled },
            logs := s.logs ++ [(deleteReservation cur).2] }) := by
  refine ⟨?_, ?_, ?_, ?_⟩
  · intro e
    rw [updateReservationTx]
    rcases hf : findRow s.reservations id with _ | cur
    · intro _
      rfl
    · rcases hu : updateReservation now cur upd with e2 | ⟨r2, log⟩
      · intro _
        simp [hu]
      · rcases log with _ | entry
        · intro h
          simp [hu, runTransaction] at h
        · by_cases hlf : lf = true
          · intro _
            simp [hu, runTransaction, hlf]
          · intro h
            simp [hu, runTransaction, hlf] at h
  · intro r2
    rw [updateReservationTx]
    rcases hf : findRow s.reservations id with _ | cur
    · intro h
      exact Except.noConfusion h
    · rcases hu : updateReservation now cur upd with e2 | ⟨r3, log⟩
      · intro h
        simp [hu] at h
      · rcases log with _ | entry
        · intro h
          obtain rfl : r3 = r2 := by simpa [hu, runTransaction] using h
          refine ⟨cur, none, rfl, hu, ?_⟩
          simp [hu, runTransaction]
        · by_cases hlf : lf = true
          · intro h
            simp [hu, runTransaction, hlf] at h
          · intro h
            obtain rfl : r3 = r2 := by simpa [hu, runTransaction, hlf] using h
            refine ⟨cur, some entry, rfl, hu, ?_⟩
            simp [hu, runTransaction, hlf]
  · intro e
    rw [deleteReservationTx]
    rcases hf : findRow s.reservations id with _ | cur
    · intro h
      exact Except.noConfusion h
    · by_cases hlf : lf = true
      · intro _
        simp [runTransaction, hlf]
      · intro h
        simp [runTransaction, hlf] at h
  · rw [deleteReservationTx]
    rcases hf : findRow s.reservations id with _ | cur
    · intro h
      exact absurd (Except.ok.inj h) (by simp)
    · by_cases hlf : lf = true
      · intro h
        simp [runTransaction, hlf] at h
      · intro _
        refine ⟨cur, rfl, ?_⟩
        simp [runTransaction, hlf, deleteReservation]

/-- Witness for `transaction_atomicity`: when the log write fails, a notes
edit of the single stored reservation leaves the storage state untouched. -/
theorem transaction_atomicity_witness :
    (updateReservationTx 0 { reservations := [res2200for4], logs := [] } 101
        { notes := some "VIP" } true).1 =
      { reservations := [res2200for4], logs := [] } :=
  (transaction_atomicity 0 { reservations := [res2200for4], logs := [] } 101
      { notes := some "VIP" } true).1 SvcError.logFailed
    (by simp [updateReservationTx, findRow, res2200for4, runTransaction,
      updateReservation, effectiveUpdate, UpdateInput.hasField,
      calculateFieldChanges, filterCompletionChanges, FieldChanges.isEmpty,
      applyUpdate])

/-- The outcome of one INSERT attempt, as observed by the catch block of
`createReservation`: the created row, or an error carrying a message, an
optional SQLSTATE code, and whether `error.constraint` mentions `overlap`. -/
inductive InsertOutcome where
  | ok (r : Reservation)
  | fail (message : String) (code : Option String) (constraintHasOverlap : Bool)
deriving DecidableEq, Repr

/-- `isConstraintViolation` (services.ts lines 472-478): the whole
classification is guarded by a truthy `error.message`. -/
def isConstraintViolation (message : String) (code : Option String)
    (constraintHasOverlap : Bool) : Bool :=
  !(message == "") &&
    (decide ("conflicts with existing reservation".toList <:+: message.toList) ||
      decide ("Reservation conflicts".toList <:+: message.toList) ||
      code == some "23514" ||
      constraintHasOverlap ||
      message == "RACE_CONDITION_DETECTED")

/-- The result of `createReservation`: the row with the attempt number that
succeeded, `TABLE_UNAVAILABLE` after exhausting the retries, or an
immediately propagated non-constraint error; `delays` lists the backoff
sleeps performed, in milliseconds. -/
inductive CreateResult where
  | created (r : Reservation) (attempt : Nat) (delays : List Nat)
  | tableUnavailable (delays : List Nat)
  | failed (message : String) (code : Option String) (attempt : Nat)
      (delays : List Nat)
deriving DecidableEq, Repr

/-- The retry loop of `createReservation` (services.ts lines 418-519):
`outcome attempt` is the storage's response to the INSERT of this attempt; on
a constraint violation before the last attempt the loop sleeps
`100 * attempt` ms and retries, on the last it surfaces `TABLE_UNAVAILABLE`;
any other error propagates at once. -/
def createAttempts (outcome : Nat → InsertOutcome) (maxRetries attempt : Nat)
    (delays : List Nat) : CreateResult :=
  match outcome attempt with
  | InsertOutcome.ok r => CreateResult.created r attempt delays
  | InsertOutcome.fail msg code co =>
    if isConstraintViolation msg code co then
      if _h : attempt < maxRetries then
        createAttempts outcome maxRetries (attempt + 1) (delays ++ [100 * attempt])
      else CreateResult.tableUnavailable delays
    else CreateResult.failed msg code attempt delays
termination_by maxRetries - attempt

/-- `CreateReservationInput` as accepted by `createReservation`. -/
structure CreateReservationInput where
  table_id : Nat
  guest_name : String
  guest_phone : Option String
  party_size : Nat
  reservation_date : Int
  reservation_time : Nat
  duration_hours : Option ℚ
  notes : Option String
  employee_id : Option Nat
deriving DecidableEq, Repr

/-- `createReservation` (services.ts lines 395-524) with the default
`maxRetries = 3`, starting at attempt 1 with no sleeps performed.  The input
`data` is handed to the INSERT unchanged (`normalizeDateForDb` is the
identity here): the function performs no slot-alignment, capacity or
past-date validation of its own; `outcome` is the storage's response to
inserting `data` on each attempt. -/
def createReservation (data : CreateReservationInput)
    (outcome : CreateReservationInput → Nat → InsertOutcome) : CreateResult :=
  createAttempts (outcome data) 3 1 []

/-- A deliberately invalid input: day -5 lies in the past of day 0, 12:07 is
not on the 15-minute grid, and a party of 10 exceeds any capacity of 4. -/
def invalidInput : CreateReservationInput :=
  { table_id := 1, guest_name := "Zofia", guest_phone := none,
    party_size := 10, reservation_date := -5, reservation_time := 727,
    duration_hours := some 2, notes := none, employee_id := none }

/-- The row the storage would hand back for `invalidInput`. -/
def invalidInputRow : Reservation :=
  { id := 201, table_id := 1, guest_name := "Zofia", guest_phone := none,
    party_size := 10, reservation_date := -5, reservation_time := 727,
    duration_hours := 2, notes := none, status := Status.active,
    employee_id := none }

/-- C4, counterexample: `createReservation` performs no input validation, so
an input with a past date (day -5 < day 0), a misaligned time (12:07) and an
oversized party (10 > 4) is inserted and returned on the first attempt — no
`ValidationError` exists on this path. -/
theorem createReservation_no_validation :
    invalidInput.reservation_date < 0 ∧
    invalidInput.reservation_time % 15 ≠ 0 ∧
    4 < invalidInput.party_size ∧
    createReservation invalidInput (fun _ _ => InsertOutcome.ok invalidInputRow) =
      CreateResult.created invalidInputRow 1 [] := by
  refine ⟨by norm_num [invalidInput], by norm_num [invalidInput],
    by norm_num [invalidInput], ?_⟩
  rw [createReservation, createAttempts]

/-- C4, amended: `createReservation` (no validation of its own) makes up to 3
INSERT attempts: it returns the row of the first successful attempt; a
constraint-violation error triggers a retry after a `100ms × attempt` backoff
(100ms before attempt 2, 200ms before attempt 3) and, only after three
constraint violations, `TABLE_UNAVAILABLE`; any non-constraint error
propagates immediately with no further attempt and no sleep. -/
theorem createReservation_spec (data : CreateReservationInput)
    (outcome : CreateReservationInput → Nat → InsertOutcome) :
    createReservation data outcome =
      match outcome data 1 with
      | InsertOutcome.ok r => CreateResult.created r 1 []
      | InsertOutcome.fail m1 c1 o1 =>
        if isConstraintViolation m1 c1 o1 then
          match outcome data 2 with
          | InsertOutcome.ok r => CreateResult.created r 2 [100]
          | InsertOutcome.fail m2 c2 o2 =>
            if isConstraintViolation m2 c2 o2 then
              match outcome data 3 with
              | InsertOutcome.ok r => CreateResult.created r 3 [100, 200]
              | InsertOutcome.fail m3 c3 o3 =>
                if isConstraintViolation m3 c3 o3 then
                  CreateResult.tableUnavailable [100, 200]
                else CreateResult.failed m3 c3 3 [100, 200]
            else CreateResult.failed m2 c2 2 [100]
        else CreateResult.failed m1 c1 1 [] := by
  rw [createReservation, createAttempts]
  cases h1 : outcome data 1 with
  | ok r => rfl
  | fail m1 c1 o1 =>
    dsimp only
    by_cases hc1 : isConstraintViolation m1 c1 o1 = true
    · rw [if_pos hc1, if_pos hc1, dif_pos (by omega : (1 : Nat) < 3),
        createAttempts]
      cases h2 : outcome data 2 with
      | ok r => simp
      | fail m2 c2 o2 =>
        dsimp only
        by_cases hc2 : isConstraintViolation m2 c2 o2 = true
        · rw [if_pos hc2, if_pos hc2, dif_pos (by omega : (2 : Nat) < 3),
            createAttempts]
          cases h3 : outcome data 3 with
          | ok r => simp
          | fail m3 c3 o3 =>
            dsimp only
            by_cases hc3 : isConstraintViolation m3 c3 o3 = true
            · rw [if_pos hc3, if_pos hc3, dif_neg (by omega : ¬ (3 : Nat) < 3)]
              simp
            · rw [if_neg hc3, if_neg hc3]
              simp
        · rw [if_neg hc2, if_neg hc2]
          simp
    · rw [if_neg hc1, if_neg hc1]

/-- Witness for `createReservation_spec`: two constraint violations (one by
message, one by SQLSTATE 23514) followed by a success yield the row on
attempt 3 after 100ms and 200ms backoffs. -/
theorem createReservation_spec_witness :
    createReservation invalidInput
        (fun _ a =>
          if a = 1 then InsertOutcome.fail "Reservation conflicts with x" none false
          else if a = 2 then InsertOutcome.fail "db error" (some "23514") false
          else InsertOutcome.ok invalidInputRow) =
      CreateResult.created invalidInputRow 3 [100, 200] := by
  rw [createReservation_spec]
  norm_num [isConstraintViolation]
  decide

/-- Time-of-day (a SQL `TIME` value) in hours. -/
def timeQ (t : Nat) : ℚ := (t : ℚ) / 60

/-- PostgreSQL `TIME + INTERVAL` wraps modulo 24 hours. -/
def wrap24 (x : ℚ) : ℚ := x - 24 * ⌊x / 24⌋

/-- The per-row overlap CASE of `check_reservation_overlap` (schema.sql lines
130-181), comparing an existing row `ex` against the NEW row `nw`; every
`reservation_time + (duration_hours || ' hours')::INTERVAL` is a wrapped
time-of-day value. -/
def triggerOverlap (ex nw : Reservation) : Bool :=
  let exEnd := wrap24 (timeQ ex.reservation_time + ex.duration_hours)
  let nwEnd := wrap24 (timeQ nw.reservation_time + nw.duration_hours)
  if nw.duration_hours = -1 then
    ex.duration_hours == -1 || decide (timeQ nw.reservation_time < exEnd)
  else
    (ex.duration_hours == -1 &&
        decide (timeQ ex.reservation_time ≤ nwEnd)) ||
      (decide (0 < ex.duration_hours) &&
        (if timeQ ex.reservation_time ≤ exEnd ∧
            timeQ nw.reservation_time ≤ nwEnd then
          decide (timeQ nw.reservation_time < exEnd) &&
            decide (timeQ ex.reservation_time < nwEnd)
        else if exEnd < timeQ ex.reservation_time ∧
            timeQ nw.reservation_time ≤ nwEnd then
          decide (timeQ ex.reservation_time ≤ timeQ nw.reservation_time) ||
            decide (timeQ ex.reservation_time < nwEnd) ||
            decide (nwEnd ≤ exEnd)
        else if timeQ ex.reservation_time ≤ exEnd ∧
            nwEnd < timeQ nw.reservation_time then
          decide (timeQ ex.reservation_time < nwEnd) ||
            decide (timeQ nw.reservation_time < exEnd)
        else true))

/-- `check_reservation_overlap` (schema.sql lines 118-190), fired BEFORE
INSERT OR UPDATE by `prevent_reservation_overlap`: it counts the active rows
on the same table and the **same `reservation_date`** (other rows are never
compared) that overlap NEW per `triggerOverlap`, and accepts (returns `true`
here) iff the count is zero; otherwise it raises. -/
def check_reservation_overlap (rs : List Reservation) (nw : Reservation) : Bool :=
  !(rs.any fun r =>
    r.table_id == nw.table_id &&
      r.reservation_date == nw.reservation_date &&
      r.status == Status.active && r.id != nw.id && triggerOverlap r nw)

/-- A new reservation on day 1 (2025-08-27) at 01:00 for 2 hours, table 1. -/
def resNextDay0100 : Reservation :=
  { id := 105, table_id := 1, guest_name := "Jan", guest_phone := none,
    party_size := 2, reservation_date := 1, reservation_time := 60,
    duration_hours := 2, notes := none, status := Status.active,
    employee_id := none }

/-- C1 (code bug): the trigger only compares rows of the same
`reservation_date`, so the active 22:00 + 4h reservation of day 0 (computed
interval [22:00, 02:00 next day)) and a new day-1 reservation at 01:00 for 2
hours ([01:00, 03:00)) are never compared — the trigger accepts the insert in
either insertion order, although the two computed intervals overlap under the
§4.2 half-open rule, the claim-side availability says "unavailable", and the
application-side `checkTableAvailability` (which `createReservation` does not
call) also reports the conflict.  The repository's own README ("blocks table
until 27.08.2025 02:00"; "users cannot book tables during cross-day blocked
periods") is violated. -/
theorem trigger_misses_cross_date_overlap :
    check_reservation_overlap [res2200for4] resNextDay0100 = true ∧
    check_reservation_overlap [resNextDay0100] res2200for4 = true ∧
    (instant 1 60 < endInstant res2200for4 ∧
      startInstant res2200for4 < candidateEnd 1 60 2) ∧
    availabilityPerSpec [res2200for4] 1 1 60 2 none = false ∧
    checkTableAvailability [res2200for4] 1 1 60 2 none = false := by
  refine ⟨?_, ?_, ?_, ?_, ?_⟩
  · norm_num [check_reservation_overlap, res2200for4, resNextDay0100]
  · norm_num [check_reservation_overlap, res2200for4, resNextDay0100]
  · norm_num [instant, endInstant, startInstant, candidateEnd, res2200for4]
  · norm_num [availabilityPerSpec, res2200for4, endInstant, candidateEnd,
      startInstant, instant]
    decide
  · norm_num [checkTableAvailability, getReservationsWithCrossDay,
      prevDayCandidate, isReservationActiveOnDate, matchesFilter, startInstant,
      instant, hourOf, endInstant, candidateEnd, res2200for4]
